import Mathlib

/-!
Shallow embedding of the input-box core of the rust-chat-server TUI.

The repository carries two parallel implementations of the input box:
* `src/tui/src/app/input_box.rs` (the "app" architecture, ambient shared
  state), embedded below in namespace `App`;
* `src/tui/src/ui_management/components/input_box.rs` (the action/state-store
  architecture), embedded below in namespace `Components`;
plus the render function `render_app_too_frame` of `src/tui/src/cli/ui.rs`,
embedded in namespace `Cli`.

Texts are modelled as `List Char` (the sequence of Unicode scalar values of a
Rust `String`); byte-level operations of the Rust code (`String::len`,
`String::insert` at a byte index, `char_indices`) are modelled explicitly via
the UTF-8 encoded size of each scalar value.  Fallible operations (a Rust
panic, e.g. `String::insert` at a non-boundary index) return `Option`.
Machine-integer widths are modelled over `Nat`; the `usize` cursor arithmetic
in the source is saturating, so no wrap-around is reachable there.  All `u16`
arithmetic is modelled with an explicit `% 65536`: the `as u16` truncating
cast in `cli/ui.rs`, the `u16` accumulator of
`get_cursor_offset_in_terminal` (which wraps at 65536 — the release
semantics of `+=` on `u16`; a debug build panics at the same point), and the
`u16` additions feeding `frame.set_cursor` in both render paths.
-/

/-- UTF-8 encoded byte length of one Unicode scalar value
(Rust `char::len_utf8`). -/
def utf8Len (c : Char) : Nat :=
  if c.val < 0x80 then 1
  else if c.val < 0x800 then 2
  else if c.val < 0x10000 then 3
  else 4

/-- Total UTF-8 byte length of a text (Rust `String::len`). -/
def byteLen (t : List Char) : Nat := (t.map utf8Len).sum

/-- Byte offset of the `n`-th scalar value of a text, or the total byte length
when `n` is past the end: the value of
`text.char_indices().nth(n).map(|p| p.0).unwrap_or(text.len())`. -/
def byteIdx : List Char → Nat → Nat
  | [], _ => 0
  | _ :: _, 0 => 0
  | c :: cs, n + 1 => utf8Len c + byteIdx cs n

/-- Rust `String::insert` at a byte index.  `none` models the panic when the
index is past the end of the string or not on a character boundary. -/
def insertAtByte : List Char → Nat → Char → Option (List Char)
  | cs, 0, c => some (c :: cs)
  | [], _ + 1, _ => none
  | c' :: cs, b + 1, c =>
      if utf8Len c' ≤ b + 1 then
        (insertAtByte cs (b + 1 - utf8Len c') c).map (fun t => c' :: t)
      else none

/-- Rust `str::is_char_boundary` for a byte index into a text. -/
def isCharBoundary : List Char → Nat → Bool
  | _, 0 => true
  | [], _ + 1 => false
  | c :: cs, b + 1 =>
      if utf8Len c ≤ b + 1 then isCharBoundary cs (b + 1 - utf8Len c) else false

/-- Modelled from the spec: the terminal display width of a character, i.e.
the external unicode-width crate collaborator (`c.width().unwrap_or(0)` in
`ui_management/components/input_box.rs`), which is not part of this
repository.  Per the spec: 0 for zero-width/combining marks, 2 for wide
scripts, 1 for standard-width characters. -/
def charWidth (c : Char) : Nat :=
  if (0x300 ≤ c.val ∧ c.val ≤ 0x36F) ∨ c.val = 0x200B then 0
  else if (0x1100 ≤ c.val ∧ c.val ≤ 0x115F) ∨ (0x2E80 ≤ c.val ∧ c.val ≤ 0xA4CF) ∨
      (0xAC00 ≤ c.val ∧ c.val ≤ 0xD7A3) ∨ (0xF900 ≤ c.val ∧ c.val ≤ 0xFAFF) ∨
      (0xFF00 ≤ c.val ∧ c.val ≤ 0xFF60) ∨ (0xFFE0 ≤ c.val ∧ c.val ≤ 0xFFE6) then 2
  else 1

/-- Sum of the display widths of a list of characters. -/
def widthSum (t : List Char) : Nat := (t.map charWidth).sum

/-- A rendering rectangle, reduced to the origin fields the embedded render
functions read (`x` and `y` of a ratatui `Rect`). -/
structure Rect where
  x : Nat
  y : Nat
  deriving DecidableEq, Repr

/-- The focusable sections of the app architecture (`Section` in
`src/tui/src/app`); only the variants the embedded code inspects. -/
inductive Section where
  | roomList
  | messageInput
  deriving DecidableEq, Repr

namespace Components

/-- The input box of `src/tui/src/ui_management/components/input_box.rs`:
the current text and the cursor position. -/
structure InputBox where
  text : List Char
  cursor_position : Nat
  deriving DecidableEq, Repr

/-- `InputBox::get_max_cursor_position`: `self.text.char_indices().count()`,
the number of characters (not bytes). -/
def get_max_cursor_position (s : InputBox) : Nat := s.text.length

/-- `InputBox::clamp_cursor`: `new_cursor_pos.clamp(0, get_max_cursor_position())`. -/
def clamp_cursor (s : InputBox) (new_cursor_pos : Nat) : Nat :=
  min new_cursor_pos (get_max_cursor_position s)

/-- `InputBox::move_cursor_left`: saturating decrement, then clamp. -/
def move_cursor_left (s : InputBox) : InputBox :=
  { s with cursor_position := clamp_cursor s (s.cursor_position - 1) }

/-- `InputBox::move_cursor_right`: saturating increment, then clamp. -/
def move_cursor_right (s : InputBox) : InputBox :=
  { s with cursor_position := clamp_cursor s (s.cursor_position + 1) }

/-- `InputBox::get_cursor_byte_index`:
`self.text.char_indices().nth(self.cursor_position).map(|p| p.0).unwrap_or(self.text.len())`. -/
def get_cursor_byte_index (s : InputBox) : Nat :=
  byteIdx s.text s.cursor_position

/-- `InputBox::enter_char`: `self.text.insert(self.get_cursor_byte_index(), new_char)`
followed by `self.move_cursor_right()` (the clamp reads the updated text). -/
def enter_char (s : InputBox) (new_char : Char) : Option InputBox :=
  (insertAtByte s.text (get_cursor_byte_index s) new_char).map
    (fun t => move_cursor_right { s with text := t })

/-- `InputBox::delete_char`: when the cursor is not leftmost, rebuild the text
as `chars().take(cursor - 1)` chained with `chars().skip(cursor)`, then
`move_cursor_left` (the clamp reads the updated text). -/
def delete_char (s : InputBox) : InputBox :=
  if s.cursor_position ≠ 0 then
    move_cursor_left
      { s with
        text := s.text.take (s.cursor_position - 1) ++ s.text.drop s.cursor_position }
  else s

/-- `InputBox::set_text`: replace the text, then place the cursor at
`get_max_cursor_position()` of the updated box. -/
def set_text (s : InputBox) (new_text : List Char) : InputBox :=
  { s with text := new_text, cursor_position := new_text.length }

/-- `InputBox::reset`: cursor to 0, text cleared. -/
def reset (s : InputBox) : InputBox :=
  { s with cursor_position := 0, text := [] }

/-- The accumulator loop of `InputBox::get_cursor_offset_in_terminal`:
walk the characters, stopping after `stop` of them (the `i == cursor_position`
break), adding each visited character's display width to the `u16`
accumulator `acc`.  The `cursor_offset += c.width().unwrap_or(0) as u16`
addition is `u16` arithmetic, modelled by `% 65536` at each step (the
wrapping release semantics; a debug build panics at the same point). -/
def offsetGo : List Char → Nat → Nat → Nat
  | [], _, acc => acc
  | _ :: _, 0, acc => acc
  | c :: cs, n + 1, acc => offsetGo cs n ((acc + charWidth c) % 65536)

/-- `InputBox::get_cursor_offset_in_terminal`: the display widths of the
characters strictly before `cursor_position`, accumulated in `u16`. -/
def get_cursor_offset_in_terminal (s : InputBox) : Nat :=
  offsetGo s.text s.cursor_position 0

/-- The fields of `RenderProps` that the cursor-placement code reads. -/
structure RenderProps where
  area : Rect
  show_cursor : Bool
  deriving DecidableEq, Repr

/-- The `frame.set_cursor` call of `InputBox::render`: emitted only when
`props.show_cursor`, at column `area.x + get_cursor_offset_in_terminal() + 1`
and row `area.y + 1`, both computed in `u16` (modelled by `% 65536`). -/
def render_set_cursor (s : InputBox) (props : RenderProps) : Option (Nat × Nat) :=
  if props.show_cursor then
    some ((props.area.x + get_cursor_offset_in_terminal s + 1) % 65536,
      (props.area.y + 1) % 65536)
  else none

/-- The mutating operations of this input box, for reachability statements. -/
inductive Op where
  | insertChar : Char → Op
  | deleteChar : Op
  | moveLeft : Op
  | moveRight : Op
  | setText : List Char → Op
  | resetOp : Op
  deriving DecidableEq, Repr

/-- One mutation step of the component input box. -/
def stepOp (s : InputBox) : Op → Option InputBox
  | Op.insertChar c => enter_char s c
  | Op.deleteChar => some (delete_char s)
  | Op.moveLeft => some (move_cursor_left s)
  | Op.moveRight => some (move_cursor_right s)
  | Op.setText t => some (set_text s t)
  | Op.resetOp => some (reset s)

/-- The initial input box of `Component::new`: empty text, cursor 0. -/
def initBox : InputBox := ⟨[], 0⟩

/-- Run a sequence of mutation steps. -/
def runOps : InputBox → List Op → Option InputBox
  | s, [] => some s
  | s, op :: ops =>
      match stepOp s op with
      | some s' => runOps s' ops
      | none => none

end Components

namespace App

/-- The input box of `src/tui/src/app/input_box.rs`: the current text and the
cursor position (a `usize` the code uses both as a position and, in
`enter_char` and `clamp_cursor`, as a byte index). -/
structure InputBox where
  text : List Char
  cursor_position : Nat
  deriving DecidableEq, Repr

/-- `InputBox::clamp_cursor` of the app architecture:
`new_cursor_pos.clamp(0, self.text.len())` — `String::len` is the byte
length, not the character count. -/
def clamp_cursor (s : InputBox) (new_cursor_pos : Nat) : Nat :=
  min new_cursor_pos (byteLen s.text)

/-- `InputBox::move_cursor_left` of the app architecture. -/
def move_cursor_left (s : InputBox) : InputBox :=
  { s with cursor_position := clamp_cursor s (s.cursor_position - 1) }

/-- `InputBox::move_cursor_right` of the app architecture. -/
def move_cursor_right (s : InputBox) : InputBox :=
  { s with cursor_position := clamp_cursor s (s.cursor_position + 1) }

/-- `InputBox::enter_char` of the app architecture:
`self.text.insert(self.cursor_position, new_char)` — the cursor value is used
directly as a byte index — then `move_cursor_right` on the updated text.
`none` models the panic of `String::insert` off a character boundary. -/
def enter_char (s : InputBox) (new_char : Char) : Option InputBox :=
  (insertAtByte s.text s.cursor_position new_char).map
    (fun t => move_cursor_right { s with text := t })

/-- `InputBox::delete_char` of the app architecture (same character-rebuild
logic as the component version). -/
def delete_char (s : InputBox) : InputBox :=
  if s.cursor_position ≠ 0 then
    move_cursor_left
      { s with
        text := s.text.take (s.cursor_position - 1) ++ s.text.drop s.cursor_position }
  else s

/-- `InputBox::reset_cursor`. -/
def reset_cursor (s : InputBox) : InputBox :=
  { s with cursor_position := 0 }

/-- `WidgetHandler::deactivate` for this widget: cursor to 0, text cleared. -/
def deactivate (s : InputBox) : InputBox :=
  { s with cursor_position := 0, text := [] }

/-- The shared state field the input box reads (`SharedState.active_room`). -/
structure SharedState where
  active_room : Option String
  deriving DecidableEq, Repr

/-- `comms::command::SendMessageCommand`. -/
structure SendMessageCommand where
  room : String
  content : List Char
  deriving DecidableEq, Repr

/-- The outbound command values written by this widget
(`comms::command::UserCommand`). -/
inductive UserCommand where
  | sendMessage : SendMessageCommand → UserCommand
  deriving DecidableEq, Repr

/-- The key codes the handler distinguishes (`crossterm KeyCode`). -/
inductive KeyCode where
  | enter
  | backspace
  | left
  | right
  | char : Char → KeyCode
  | other
  deriving DecidableEq, Repr

/-- `crossterm KeyEventKind`. -/
inductive KeyEventKind where
  | press
  | release
  | repeatKind
  deriving DecidableEq, Repr

/-- `crossterm KeyEvent`, reduced to the fields the handler reads. -/
structure KeyEvent where
  code : KeyCode
  kind : KeyEventKind
  deriving DecidableEq, Repr

/-- `WidgetKeyHandled`. -/
inductive WidgetKeyHandled where
  | ok
  | loseFocus
  deriving DecidableEq, Repr

/-- `InputBox::submit_message`: performs one `CommandWriter::write` carrying a
`SendMessage` command built from the room and the current text, discards the
write's outcome (`let _ = ... .await`, modelled by the unused parameter), then
clears the text and resets the cursor.  Returns the updated box together with
the list of commands written (exactly one). -/
def submit_message (_write_outcome : Bool) (s : InputBox) (room : String) :
    InputBox × List UserCommand :=
  (reset_cursor { s with text := [] },
    [UserCommand.sendMessage ⟨room, s.text⟩])

/-- `WidgetHandler::handle_key_event` of the app architecture.  Returns the
updated box, the outbound commands written, and the handled signal; the write
outcome of a submission is a parameter (the code ignores it).  `none` models a
panic inside `enter_char`. -/
def handle_key_event (write_outcome : Bool) (shared : SharedState) (s : InputBox)
    (key : KeyEvent) : Option (InputBox × List UserCommand × WidgetKeyHandled) :=
  if key.kind ≠ KeyEventKind.press then some (s, [], WidgetKeyHandled.ok)
  else
    match key.code with
    | KeyCode.enter =>
        match shared.active_room with
        | some active_room =>
            let r := submit_message write_outcome s active_room
            some (r.1, r.2, WidgetKeyHandled.loseFocus)
        | none => some (s, [], WidgetKeyHandled.loseFocus)
    | KeyCode.char to_insert =>
        (enter_char s to_insert).map (fun s' => (s', [], WidgetKeyHandled.ok))
    | KeyCode.backspace => some (delete_char s, [], WidgetKeyHandled.ok)
    | KeyCode.left => some (move_cursor_left s, [], WidgetKeyHandled.ok)
    | KeyCode.right => some (move_cursor_right s, [], WidgetKeyHandled.ok)
    | KeyCode.other => some (s, [], WidgetKeyHandled.ok)

/-- Focus state of the editing session. -/
inductive FocusState where
  | focused
  | unfocused
  deriving DecidableEq, Repr

/-- Modelled from the spec: the widget-manager focus router is not under
`src/`; per the spec, when a handler returns `LoseFocus` the router calls the
just-left widget's `deactivate` (clearing its transient buffer) and
transitions to `Unfocused`, otherwise the widget stays focused. -/
def session_step (write_outcome : Bool) (shared : SharedState) (s : InputBox)
    (key : KeyEvent) : Option (InputBox × List UserCommand × FocusState) :=
  (handle_key_event write_outcome shared s key).map
    (fun r =>
      match r.2.2 with
      | WidgetKeyHandled.loseFocus => (deactivate r.1, r.2.1, FocusState.unfocused)
      | WidgetKeyHandled.ok => (r.1, r.2.1, FocusState.focused))

/-- The buffer-mutating operations of the app input box, for reachability
statements. -/
inductive Op where
  | insertChar : Char → Op
  | deleteChar : Op
  | moveLeft : Op
  | moveRight : Op
  | deactivateOp : Op
  | submitClear : Op
  deriving DecidableEq, Repr

/-- One mutation step of the app input box (`submitClear` is the buffer effect
of `submit_message`). -/
def stepOp (s : InputBox) : Op → Option InputBox
  | Op.insertChar c => enter_char s c
  | Op.deleteChar => some (delete_char s)
  | Op.moveLeft => some (move_cursor_left s)
  | Op.moveRight => some (move_cursor_right s)
  | Op.deactivateOp => some (deactivate s)
  | Op.submitClear => some (reset_cursor { s with text := [] })

/-- Run a sequence of mutation steps from a state. -/
def runOps : InputBox → List Op → Option InputBox
  | s, [] => some s
  | s, op :: ops =>
      match stepOp s op with
      | some s' => runOps s' ops
      | none => none

end App

namespace Cli

/-- The fields of `App` (app architecture) that the cursor-placement code of
`render_app_too_frame` reads. -/
structure AppState where
  active_section : Option Section
  input_box : App.InputBox
  deriving DecidableEq, Repr

/-- The `frame.set_cursor` call of `render_app_too_frame` in
`src/tui/src/cli/ui.rs`: emitted only when the active section is
`MessageInput`, at column
`container_input.x + app.input_box.cursor_position as u16 + 1` (the raw
cursor position truncated to `u16`, then `u16` additions, modelled by
`% 65536`) and row `container_input.y + 1` (also `u16`). -/
def render_input_cursor (app : AppState) (container_input : Rect) :
    Option (Nat × Nat) :=
  match app.active_section with
  | some Section.messageInput =>
      some ((container_input.x + app.input_box.cursor_position % 65536 + 1) % 65536,
        (container_input.y + 1) % 65536)
  | _ => none

end Cli

/-! ### Helper lemmas -/

theorem utf8Len_pos (c : Char) : 0 < utf8Len c := by
  unfold utf8Len
  split
  · exact Nat.one_pos
  · split
    · exact Nat.zero_lt_two
    · split
      · norm_num
      · norm_num

theorem charWidth_le_two (c : Char) : charWidth c ≤ 2 := by
  unfold charWidth
  split
  · exact Nat.zero_le 2
  · split
    · exact Nat.le_refl 2
    · norm_num

theorem byteLen_cons (c : Char) (cs : List Char) :
    byteLen (c :: cs) = utf8Len c + byteLen cs := by
  simp [byteLen]

theorem byteIdx_take (cs : List Char) (n : Nat) :
    byteIdx cs n = byteLen (cs.take n) := by
  induction cs generalizing n with
  | nil => cases n <;> simp [byteIdx, byteLen]
  | cons c cs ih =>
    cases n with
    | zero => simp [byteIdx, byteLen]
    | succ m => simp [byteIdx, byteLen_cons, ih]

theorem insertAtByte_byteIdx (cs : List Char) (n : Nat) (c : Char) :
    insertAtByte cs (byteIdx cs n) c = some (cs.take n ++ c :: cs.drop n) := by
  induction cs generalizing n with
  | nil =>
    cases n <;> simp [byteIdx, insertAtByte]
  | cons c' cs ih =>
    cases n with
    | zero => simp [byteIdx, insertAtByte]
    | succ m =>
      have hpos : 0 < utf8Len c' := utf8Len_pos c'
      have hsum : byteIdx (c' :: cs) (m + 1) = utf8Len c' + byteIdx cs m := rfl
      rcases hb : byteIdx (c' :: cs) (m + 1) with _ | b
      · omega
      · have hle : utf8Len c' ≤ b + 1 := by omega
        have hsub : b + 1 - utf8Len c' = byteIdx cs m := by omega
        simp only [insertAtByte, if_pos hle, hsub, ih, Option.map_some']
        simp

theorem isCharBoundary_byteIdx (cs : List Char) (n : Nat) :
    isCharBoundary cs (byteIdx cs n) = true := by
  induction cs generalizing n with
  | nil => cases n <;> simp [byteIdx, isCharBoundary]
  | cons c' cs ih =>
    cases n with
    | zero => simp [byteIdx, isCharBoundary]
    | succ m =>
      have hpos : 0 < utf8Len c' := utf8Len_pos c'
      have hsum : byteIdx (c' :: cs) (m + 1) = utf8Len c' + byteIdx cs m := rfl
      rcases hb : byteIdx (c' :: cs) (m + 1) with _ | b
      · omega
      · have hle : utf8Len c' ≤ b + 1 := by omega
        have hsub : b + 1 - utf8Len c' = byteIdx cs m := by omega
        simp only [isCharBoundary, if_pos hle, hsub, ih]

theorem take_insert_self (l : List Char) (n : Nat) (c : Char) (h : n ≤ l.length) :
    (l.take n ++ c :: l.drop n).take n = l.take n := by
  induction l generalizing n with
  | nil =>
    have : n = 0 := by simpa using h
    simp [this]
  | cons x xs ih =>
    cases n with
    | zero => simp
    | succ m =>
      have hm : m ≤ xs.length := by simpa using h
      simp [List.take, ih m hm]

theorem drop_insert_self (l : List Char) (n : Nat) (c : Char) (h : n ≤ l.length) :
    (l.take n ++ c :: l.drop n).drop (n + 1) = l.drop n := by
  induction l generalizing n with
  | nil =>
    have : n = 0 := by simpa using h
    simp [this]
  | cons x xs ih =>
    cases n with
    | zero => simp
    | succ m =>
      have hm : m ≤ xs.length := by simpa using h
      simpa [List.drop] using ih m hm

theorem length_insert_self (l : List Char) (n : Nat) (c : Char) :
    (l.take n ++ c :: l.drop n).length = l.length + 1 := by
  simp [List.length_append, List.length_take, List.length_drop]
  omega

namespace Components

theorem enter_char_eq (t : List Char) (n : Nat) (c : Char) :
    enter_char ⟨t, n⟩ c =
      some ⟨t.take n ++ c :: t.drop n, min (n + 1) (t.length + 1)⟩ := by
  unfold enter_char get_cursor_byte_index
  simp only [insertAtByte_byteIdx, Option.map_some']
  unfold move_cursor_right clamp_cursor get_max_cursor_position
  rw [length_insert_self]

theorem offsetGo_eq_of_lt (cs : List Char) (n : Nat) (acc : Nat)
    (hacc : acc + widthSum (cs.take n) < 65536) :
    offsetGo cs n acc = acc + widthSum (cs.take n) := by
  induction cs generalizing n acc with
  | nil => cases n <;> simp [offsetGo, widthSum]
  | cons c cs ih =>
    cases n with
    | zero => simp [offsetGo, widthSum]
    | succ m =>
      have hw : widthSum ((c :: cs).take (m + 1)) = charWidth c + widthSum (cs.take m) := by
        simp [widthSum]
      rw [hw] at hacc ⊢
      have hlt : acc + charWidth c < 65536 := by omega
      show offsetGo cs m ((acc + charWidth c) % 65536) = acc + (charWidth c + widthSum (cs.take m))
      rw [Nat.mod_eq_of_lt hlt, ih m (acc + charWidth c) (by omega)]
      omega

theorem charWidth_hiragana_a : charWidth 'あ' = 2 := by decide

theorem offsetGo_replicate (k m acc : Nat) (hm : m ≤ k) (hacc : acc < 65536) :
    offsetGo (List.replicate k 'あ') m acc = (acc + 2 * m) % 65536 := by
  induction m generalizing k acc with
  | zero =>
    cases k with
    | zero => simp [offsetGo, Nat.mod_eq_of_lt hacc]
    | succ j => simp [List.replicate, offsetGo, Nat.mod_eq_of_lt hacc]
  | succ m ih =>
    cases k with
    | zero => omega
    | succ j =>
      show offsetGo (List.replicate j 'あ') m ((acc + charWidth 'あ') % 65536) =
        (acc + 2 * (m + 1)) % 65536
      rw [charWidth_hiragana_a,
        ih j ((acc + 2) % 65536) (by omega) (Nat.mod_lt _ (by norm_num)),
        Nat.mod_add_mod]
      congr 1
      ring

theorem widthSum_take_mono (t : List Char) (p : Nat) :
    widthSum (t.take p) ≤ widthSum (t.take (p + 1)) := by
  induction t generalizing p with
  | nil => simp
  | cons c cs ih =>
    cases p with
    | zero => simp [widthSum]
    | succ m =>
      simp only [List.take, widthSum, List.map_cons, List.sum_cons]
      exact Nat.add_le_add_left (ih m) (charWidth c)

theorem delete_char_insert (t : List Char) (n : Nat) (c : Char)
    (h : n ≤ t.length) :
    delete_char ⟨t.take n ++ c :: t.drop n, n + 1⟩ = ⟨t, n⟩ := by
  unfold delete_char
  rw [if_pos (by omega : (n + 1 : Nat) ≠ 0)]
  have h1 : (n + 1) - 1 = n := by omega
  unfold move_cursor_left clamp_cursor get_max_cursor_position
  simp only [h1, take_insert_self t n c h, drop_insert_self t n c h,
    List.take_append_drop]
  congr 1
  omega

theorem stepOp_inv (s : InputBox) (op : Op) (s' : InputBox)
    (hinv : s.cursor_position ≤ s.text.length)
    (h : stepOp s op = some s') :
    s'.cursor_position ≤ s'.text.length := by
  obtain ⟨t, n⟩ := s
  cases op with
  | insertChar c =>
    simp only [stepOp, enter_char_eq, Option.some.injEq] at h
    subst h
    simp [length_insert_self]
    omega
  | deleteChar =>
    simp only [stepOp, Option.some.injEq] at h
    subst h
    unfold delete_char
    split
    · unfold move_cursor_left clamp_cursor get_max_cursor_position
      simp
    · exact hinv
  | moveLeft =>
    simp only [stepOp, Option.some.injEq] at h
    subst h
    unfold move_cursor_left clamp_cursor get_max_cursor_position
    simp
  | moveRight =>
    simp only [stepOp, Option.some.injEq] at h
    subst h
    unfold move_cursor_right clamp_cursor get_max_cursor_position
    simp
  | setText u =>
    simp only [stepOp, Option.some.injEq] at h
    subst h
    simp [set_text]
  | resetOp =>
    simp only [stepOp, Option.some.injEq] at h
    subst h
    simp [reset]

theorem runOps_inv (ops : List Op) (s₀ s : InputBox)
    (hinv : s₀.cursor_position ≤ s₀.text.length)
    (h : runOps s₀ ops = some s) :
    s.cursor_position ≤ s.text.length := by
  induction ops generalizing s₀ with
  | nil =>
    simp only [runOps, Option.some.injEq] at h
    subst h
    exact hinv
  | cons op ops ih =>
    simp only [runOps] at h
    rcases hstep : stepOp s₀ op with _ | s₁
    · rw [hstep] at h
      exact absurd h (by simp)
    · rw [hstep] at h
      exact ih s₁ (stepOp_inv s₀ op s₁ hinv hstep) h

theorem widthSum_take_step (t : List Char) (p : Nat) :
    widthSum (t.take (p + 1)) ≤ widthSum (t.take p) + 2 := by
  induction t generalizing p with
  | nil => simp
  | cons c cs ih =>
    cases p with
    | zero =>
      simpa [widthSum] using charWidth_le_two c
    | succ m =>
      simp only [List.take, widthSum, List.map_cons, List.sum_cons]
      have := ih m
      unfold widthSum at this
      omega

end Components

/-! ### Claim theorems -/

/-- Claim C1, amended: in the action/state-store implementation
(`ui_management/components/input_box.rs`), every buffer state reachable from
the initial state by any sequence of insert, delete, move-left, move-right,
set-text and reset operations (reset is the buffer effect of deactivation and
submission in this architecture) satisfies
`0 ≤ cursor_position ≤ codepoint_count(text)`, and its `clamp_cursor` bounds
the cursor by the number of Unicode scalar values of the text.  (In the app
prototype the bound is the byte length instead, and the invariant fails; see
the counterexample.) -/
theorem C1_cursor_invariant (ops : List Components.Op) (s : Components.InputBox)
    (n : Nat) (h : Components.runOps Components.initBox ops = some s) :
    s.cursor_position ≤ s.text.length ∧
    Components.clamp_cursor s n ≤ s.text.length := by
  refine ⟨Components.runOps_inv ops Components.initBox s (Nat.le_refl 0) h, ?_⟩
  simp [Components.clamp_cursor, Components.get_max_cursor_position]

/-- Witness for C1: the state reached by inserting `'é'` and moving right
satisfies the invariant, and its clamp bounds any candidate cursor by the
codepoint count. -/
theorem C1_cursor_invariant_witness :
    (⟨['é'], 1⟩ : Components.InputBox).cursor_position ≤
      (⟨['é'], 1⟩ : Components.InputBox).text.length ∧
    Components.clamp_cursor ⟨['é'], 1⟩ 5 ≤
      (⟨['é'], 1⟩ : Components.InputBox).text.length :=
  C1_cursor_invariant [Components.Op.insertChar 'é', Components.Op.moveRight]
    ⟨['é'], 1⟩ 5 (by decide)

/-- Counterexample to C1 as stated: in the app implementation
(`app/input_box.rs`), inserting `'é'` (a two-byte scalar value) and pressing
right twice reaches the state with cursor 2, which exceeds the codepoint
count 1; its `clamp_cursor` bounds by the byte length 2, not by the codepoint
count. -/
theorem C1_app_byte_clamp_counterexample :
    App.runOps ⟨[], 0⟩
      [App.Op.insertChar 'é', App.Op.moveRight, App.Op.moveRight] =
      some ⟨['é'], 2⟩ ∧
    ¬ ((⟨['é'], 2⟩ : App.InputBox).cursor_position ≤
        (⟨['é'], 2⟩ : App.InputBox).text.length) ∧
    App.clamp_cursor ⟨['é'], 2⟩ 9 = 2 := by decide

/-- Claim C2, amended: in the action/state-store implementation, for every
buffer state satisfying the cursor invariant and every character `c`,
`enter_char c` inserts `c` at the storage offset obtained by translating the
codepoint index `cursor_position` to a byte offset (the byte length of the
first `cursor_position` characters), i.e. at codepoint position
`cursor_position`, and advances the cursor by exactly one codepoint, clamped
to the new codepoint count.  (The app prototype instead uses
`cursor_position` directly as a byte offset; see the counterexample.) -/
theorem C2_enter_char_codepoint (s : Components.InputBox) (c : Char)
    (h : s.cursor_position ≤ s.text.length) :
    Components.get_cursor_byte_index s = byteLen (s.text.take s.cursor_position) ∧
    Components.enter_char s c =
      some ⟨s.text.take s.cursor_position ++ c :: s.text.drop s.cursor_position,
        s.cursor_position + 1⟩ := by
  obtain ⟨t, n⟩ := s
  have h' : n ≤ t.length := h
  refine ⟨byteIdx_take t n, ?_⟩
  rw [Components.enter_char_eq, Nat.min_eq_left (Nat.succ_le_succ h')]

/-- Witness for C2 at the state with text `"éx"`, cursor 1, inserting `'a'`. -/
theorem C2_enter_char_codepoint_witness :
    Components.get_cursor_byte_index ⟨['é', 'x'], 1⟩ =
      byteLen ((['é', 'x'] : List Char).take 1) ∧
    Components.enter_char ⟨['é', 'x'], 1⟩ 'a' =
      some ⟨(['é', 'x'] : List Char).take 1 ++ 'a' :: (['é', 'x'] : List Char).drop 1,
        1 + 1⟩ :=
  C2_enter_char_codepoint ⟨['é', 'x'], 1⟩ 'a' (by decide)

/-- Counterexample to C2 as stated: in the app implementation, at the state
with text `"é"` and cursor 1 (which satisfies the cursor invariant),
`enter_char` uses the raw cursor value 1 as a byte offset; byte 1 is in the
middle of the two-byte scalar value, so the insertion panics (`none`),
whereas the translated byte offset of codepoint index 1 is 2. -/
theorem C2_app_raw_byte_counterexample :
    (⟨['é'], 1⟩ : App.InputBox).cursor_position ≤ (['é'] : List Char).length ∧
    App.enter_char ⟨['é'], 1⟩ 'a' = none ∧
    byteIdx ['é'] 1 = 2 := by decide

/-- Claim C3, amended: a cursor position for the input widget is emitted by
`render_app_too_frame` exactly when the input widget is the active section
(in the component render, exactly when its `show_cursor` prop is set); all
coordinate arithmetic is `u16` (wraps modulo 65536).  In the component
render, whenever the display-width sum over the codepoints preceding
`cursor_position` fits in `u16`, the emitted column is the widget
rectangle's x origin plus that display-width sum plus one (the border
offset), modulo 65536; in the `cli/ui.rs` render the column is the
rectangle's x origin plus the raw `cursor_position` value (truncated to
`u16`) plus one, modulo 65536. -/
theorem C3_render_cursor_position (a : Cli.AppState) (r : Rect)
    (s : Components.InputBox) (props : Components.RenderProps) :
    ((Cli.render_input_cursor a r).isSome ↔
      a.active_section = some Section.messageInput) ∧
    (a.active_section = some Section.messageInput →
      Cli.render_input_cursor a r =
        some ((r.x + a.input_box.cursor_position % 65536 + 1) % 65536,
          (r.y + 1) % 65536)) ∧
    ((Components.render_set_cursor s props).isSome ↔ props.show_cursor = true) ∧
    (props.show_cursor = true →
      widthSum (s.text.take s.cursor_position) < 65536 →
      Components.render_set_cursor s props =
        some ((props.area.x + widthSum (s.text.take s.cursor_position) + 1) % 65536,
          (props.area.y + 1) % 65536)) := by
  refine ⟨?_, ?_, ?_, ?_⟩
  · rcases ha : a.active_section with _ | sec
    · simp [Cli.render_input_cursor, ha]
    · cases sec <;> simp [Cli.render_input_cursor, ha]
  · intro h
    simp [Cli.render_input_cursor, h]
  · cases hp : props.show_cursor <;> simp [Components.render_set_cursor, hp]
  · intro h hw
    have hoff : Components.get_cursor_offset_in_terminal s =
        widthSum (s.text.take s.cursor_position) := by
      show Components.offsetGo s.text s.cursor_position 0 = _
      rw [Components.offsetGo_eq_of_lt s.text s.cursor_position 0 (by omega)]
      omega
    simp [Components.render_set_cursor, h, hoff]

/-- Witness for C3: concrete emissions of both render paths. -/
theorem C3_render_cursor_position_witness :
    Cli.render_input_cursor ⟨some Section.messageInput, ⟨['あ'], 2⟩⟩ ⟨0, 0⟩ =
      some (((0 : Nat) + 2 % 65536 + 1) % 65536, ((0 : Nat) + 1) % 65536) ∧
    Components.render_set_cursor ⟨['あ'], 1⟩ ⟨⟨0, 0⟩, true⟩ =
      some (((0 : Nat) + widthSum ((['あ'] : List Char).take 1) + 1) % 65536,
        ((0 : Nat) + 1) % 65536) :=
  ⟨(C3_render_cursor_position ⟨some Section.messageInput, ⟨['あ'], 2⟩⟩ ⟨0, 0⟩
      ⟨['あ'], 1⟩ ⟨⟨0, 0⟩, true⟩).2.1 rfl,
    (C3_render_cursor_position ⟨some Section.messageInput, ⟨['あ'], 2⟩⟩ ⟨0, 0⟩
      ⟨['あ'], 1⟩ ⟨⟨0, 0⟩, true⟩).2.2.2 rfl (by decide)⟩

/-- Counterexample to C3 as stated: with text `"あ"` (display width 2) and
cursor 2 the `cli/ui.rs` render emits column 3, while the rectangle's x origin
plus the display-width sum is 2 — the column is the x origin plus the raw
cursor index plus one; and the component render at an empty text emits column
6 from x origin 5, not `x + widthsum = 5`, because of the border offset. -/
theorem C3_raw_cursor_counterexample :
    Cli.render_input_cursor ⟨some Section.messageInput, ⟨['あ'], 2⟩⟩ ⟨0, 0⟩ =
      some (3, 1) ∧
    (0 : Nat) + widthSum ((['あ'] : List Char).take 2) = 2 ∧
    (3 : Nat) ≠ 2 ∧
    Components.render_set_cursor ⟨[], 0⟩ ⟨⟨5, 0⟩, true⟩ = some (6, 1) ∧
    (6 : Nat) ≠ 5 + widthSum (([] : List Char).take 0) := by decide

/-- Claim C4: when the Enter key of kind Press is handled with
`active_room = some room`, exactly one outbound write is performed, carrying
the `SendMessage` command built from `room` and the buffer's current text;
whatever the write's outcome (the handler discards it), afterwards the buffer
text is empty, the cursor is 0, and the handler signals focus loss. -/
theorem C4_submit_with_room (wr : Bool) (shared : App.SharedState)
    (s : App.InputBox) (key : App.KeyEvent) (room : String)
    (hroom : shared.active_room = some room)
    (hkey : key = ⟨App.KeyCode.enter, App.KeyEventKind.press⟩) :
    App.handle_key_event wr shared s key =
      some (⟨[], 0⟩,
        [App.UserCommand.sendMessage ⟨room, s.text⟩],
        App.WidgetKeyHandled.loseFocus) := by
  subst hkey
  simp [App.handle_key_event, hroom, App.submit_message, App.reset_cursor]

/-- Witness for C4: the scenario of the spec, room `"general"` and buffer
`"hello"`, under a failed write outcome. -/
theorem C4_submit_with_room_witness :
    App.handle_key_event false ⟨some ("general")⟩ ⟨['h', 'e', 'l', 'l', 'o'], 5⟩
      ⟨App.KeyCode.enter, App.KeyEventKind.press⟩ =
      some (⟨[], 0⟩,
        [App.UserCommand.sendMessage ⟨("general"), ['h', 'e', 'l', 'l', 'o']⟩],
        App.WidgetKeyHandled.loseFocus) :=
  C4_submit_with_room false ⟨some ("general")⟩ ⟨['h', 'e', 'l', 'l', 'o'], 5⟩
    ⟨App.KeyCode.enter, App.KeyEventKind.press⟩ ("general") rfl rfl

/-- Claim C5: when the Enter key of kind Press is handled with
`active_room = none`, the handler performs no outbound write and signals focus
loss; the focus router (modelled from the spec) then deactivates the widget,
so by the time the editing session ends the buffer text is empty, the cursor
is 0, and focus is Unfocused. -/
theorem C5_submit_without_room (wr : Bool) (shared : App.SharedState)
    (s : App.InputBox) (key : App.KeyEvent)
    (hroom : shared.active_room = none)
    (hkey : key = ⟨App.KeyCode.enter, App.KeyEventKind.press⟩) :
    App.handle_key_event wr shared s key =
      some (s, [], App.WidgetKeyHandled.loseFocus) ∧
    App.session_step wr shared s key =
      some (⟨[], 0⟩, [], App.FocusState.unfocused) := by
  subst hkey
  constructor <;>
    simp [App.handle_key_event, App.session_step, hroom, App.deactivate]

/-- Witness for C5 at a non-empty buffer. -/
theorem C5_submit_without_room_witness :
    App.handle_key_event true ⟨none⟩ ⟨['h', 'i'], 2⟩
      ⟨App.KeyCode.enter, App.KeyEventKind.press⟩ =
      some (⟨['h', 'i'], 2⟩, [], App.WidgetKeyHandled.loseFocus) ∧
    App.session_step true ⟨none⟩ ⟨['h', 'i'], 2⟩
      ⟨App.KeyCode.enter, App.KeyEventKind.press⟩ =
      some (⟨[], 0⟩, [], App.FocusState.unfocused) :=
  C5_submit_without_room true ⟨none⟩ ⟨['h', 'i'], 2⟩
    ⟨App.KeyCode.enter, App.KeyEventKind.press⟩ rfl rfl

/-- Claim C6, amended: in the action/state-store implementation, for every
buffer state satisfying the cursor invariant and every character `c`,
`enter_char c` immediately followed by `delete_char` restores the prior
`(text, cursor_position)` exactly.  (In the app prototype the pair can panic
on multibyte text; see the counterexample.) -/
theorem C6_insert_delete_roundtrip (s : Components.InputBox) (c : Char)
    (h : s.cursor_position ≤ s.text.length) :
    (Components.enter_char s c).map Components.delete_char = some s := by
  obtain ⟨t, n⟩ := s
  have h' : n ≤ t.length := h
  rw [Components.enter_char_eq, Option.map_some',
    Nat.min_eq_left (Nat.succ_le_succ h'), Components.delete_char_insert t n c h']

/-- Witness for C6 at text `"éx"`, cursor 1, character `'Z'`. -/
theorem C6_insert_delete_roundtrip_witness :
    (Components.enter_char ⟨['é', 'x'], 1⟩ 'Z').map Components.delete_char =
      some ⟨['é', 'x'], 1⟩ :=
  C6_insert_delete_roundtrip ⟨['é', 'x'], 1⟩ 'Z' (by decide)

/-- Counterexample to C6 as stated: in the app implementation, at the
invariant-satisfying state with text `"é"` and cursor 1, the insert half of
the round trip already panics (byte 1 is not a character boundary), so the
round trip does not restore the state. -/
theorem C6_app_roundtrip_counterexample :
    (⟨['é'], 1⟩ : App.InputBox).cursor_position ≤ (['é'] : List Char).length ∧
    (App.enter_char ⟨['é'], 1⟩ 'b').map App.delete_char = none := by decide

/-- Claim C7: in both implementations, `delete_char` at cursor position 0 is a
no-op: text and cursor are left exactly unchanged. -/
theorem C7_delete_at_zero_noop (s : Components.InputBox) (t : App.InputBox)
    (hs : s.cursor_position = 0) (ht : t.cursor_position = 0) :
    Components.delete_char s = s ∧ App.delete_char t = t := by
  constructor
  · unfold Components.delete_char
    simp [hs]
  · unfold App.delete_char
    simp [ht]

/-- Witness for C7 on non-empty texts. -/
theorem C7_delete_at_zero_noop_witness :
    Components.delete_char ⟨['a'], 0⟩ = ⟨['a'], 0⟩ ∧
    App.delete_char ⟨['b', 'c'], 0⟩ = ⟨['b', 'c'], 0⟩ :=
  C7_delete_at_zero_noop ⟨['a'], 0⟩ ⟨['b', 'c'], 0⟩ rfl rfl

/-- Claim C8, amended: in the action/state-store implementation, for every
buffer state satisfying the cursor invariant, `move_cursor_left` decreases the
cursor by one saturating at 0 and `move_cursor_right` increases it by one
saturating at the codepoint count; in particular `move_cursor_right` at
`cursor_position = codepoint_count(text)` leaves the whole state unchanged,
and neither operation under- or overflows (the arithmetic is saturating).
(In the app prototype the saturation bound of `move_cursor_right` is the byte
length of the text; see the counterexample.) -/
theorem C8_move_saturating (s : Components.InputBox)
    (h : s.cursor_position ≤ s.text.length) :
    (Components.move_cursor_left s).text = s.text ∧
    (Components.move_cursor_left s).cursor_position = s.cursor_position - 1 ∧
    (Components.move_cursor_right s).text = s.text ∧
    (Components.move_cursor_right s).cursor_position =
      min (s.cursor_position + 1) s.text.length ∧
    (s.cursor_position = s.text.length → Components.move_cursor_right s = s) := by
  obtain ⟨t, n⟩ := s
  have h' : n ≤ t.length := h
  refine ⟨rfl, ?_, rfl, rfl, ?_⟩
  · show min (n - 1) t.length = n - 1
    omega
  · intro he
    have he' : n = t.length := he
    show Components.move_cursor_right ⟨t, n⟩ = ⟨t, n⟩
    unfold Components.move_cursor_right Components.clamp_cursor
      Components.get_max_cursor_position
    congr 1
    show min (n + 1) t.length = n
    omega

/-- Witness for C8 at text `"hi"`, cursor 2 (the end of the text). -/
theorem C8_move_saturating_witness :
    (Components.move_cursor_left ⟨['h', 'i'], 2⟩).text = (⟨['h', 'i'], 2⟩ : Components.InputBox).text ∧
    (Components.move_cursor_left ⟨['h', 'i'], 2⟩).cursor_position = 2 - 1 ∧
    (Components.move_cursor_right ⟨['h', 'i'], 2⟩).text = (⟨['h', 'i'], 2⟩ : Components.InputBox).text ∧
    (Components.move_cursor_right ⟨['h', 'i'], 2⟩).cursor_position =
      min (2 + 1) (['h', 'i'] : List Char).length ∧
    ((2 : Nat) = (['h', 'i'] : List Char).length →
      Components.move_cursor_right ⟨['h', 'i'], 2⟩ = ⟨['h', 'i'], 2⟩) :=
  C8_move_saturating ⟨['h', 'i'], 2⟩ (by decide)

/-- Counterexample to C8 as stated: in the app implementation, at text `"é"`
the cursor 1 equals the codepoint count, yet `move_cursor_right` moves the
cursor to 2 (it saturates at the byte length 2), changing the state. -/
theorem C8_app_byte_saturation_counterexample :
    (⟨['é'], 1⟩ : App.InputBox).cursor_position = (['é'] : List Char).length ∧
    App.move_cursor_right ⟨['é'], 1⟩ = ⟨['é'], 2⟩ ∧
    (⟨['é'], 2⟩ : App.InputBox) ≠ (⟨['é'], 1⟩ : App.InputBox) := by decide

/-- Claim C9, amended: for every text and every cursor position `p` with
`p + 1 ≤ codepoint_count(text)`, provided the display-width sum of the first
`p + 1` codepoints is below 65536 (so the `u16` accumulator of
`get_cursor_offset_in_terminal` does not overflow), the display column at
`p + 1` is at least its value at `p` (the function is non-decreasing step by
step), and each step adds at most 2 columns (each character contributes a
display width of 0, 1 or 2).  (Once the width sum reaches 65536 the `u16`
accumulator wraps — panics in a debug build — and monotonicity fails; see
the counterexample.) -/
theorem C9_display_column_monotone (t : List Char) (p : Nat)
    (_h : p + 1 ≤ t.length) (hw : widthSum (t.take (p + 1)) < 65536) :
    Components.get_cursor_offset_in_terminal ⟨t, p⟩ ≤
      Components.get_cursor_offset_in_terminal ⟨t, p + 1⟩ ∧
    Components.get_cursor_offset_in_terminal ⟨t, p + 1⟩ ≤
      Components.get_cursor_offset_in_terminal ⟨t, p⟩ + 2 := by
  have hm := Components.widthSum_take_mono t p
  have hs := Components.widthSum_take_step t p
  have e1 : Components.get_cursor_offset_in_terminal ⟨t, p⟩ = widthSum (t.take p) := by
    show Components.offsetGo t p 0 = _
    rw [Components.offsetGo_eq_of_lt t p 0 (by omega)]
    omega
  have e2 : Components.get_cursor_offset_in_terminal ⟨t, p + 1⟩ =
      widthSum (t.take (p + 1)) := by
    show Components.offsetGo t (p + 1) 0 = _
    rw [Components.offsetGo_eq_of_lt t (p + 1) 0 (by omega)]
    omega
  rw [e1, e2]
  exact ⟨hm, hs⟩

/-- Witness for C9 at the spec's scenario B text: a wide character followed by
an ASCII character, stepping the cursor from 0 to 1. -/
theorem C9_display_column_monotone_witness :
    Components.get_cursor_offset_in_terminal ⟨['あ', 'b'], 0⟩ ≤
      Components.get_cursor_offset_in_terminal ⟨['あ', 'b'], 0 + 1⟩ ∧
    Components.get_cursor_offset_in_terminal ⟨['あ', 'b'], 0 + 1⟩ ≤
      Components.get_cursor_offset_in_terminal ⟨['あ', 'b'], 0⟩ + 2 :=
  C9_display_column_monotone ['あ', 'b'] 0 (by decide) (by decide)

/-- Counterexample to C9 as stated: on a line of 32768 wide characters, the
`u16` accumulator of `get_cursor_offset_in_terminal` reaches 65534 at cursor
32767 and wraps to 0 at cursor 32768 (a debug build panics on the same
addition), so the display column at `p + 1 = 32768` is smaller than at
`p = 32767`. -/
theorem C9_u16_wrap_counterexample :
    (32767 : Nat) + 1 ≤ (List.replicate 32768 'あ').length ∧
    Components.get_cursor_offset_in_terminal ⟨List.replicate 32768 'あ', 32767⟩ = 65534 ∧
    Components.get_cursor_offset_in_terminal ⟨List.replicate 32768 'あ', 32768⟩ = 0 ∧
    ¬ (Components.get_cursor_offset_in_terminal ⟨List.replicate 32768 'あ', 32767⟩ ≤
        Components.get_cursor_offset_in_terminal ⟨List.replicate 32768 'あ', 32768⟩) := by
  have h1 : Components.get_cursor_offset_in_terminal
      ⟨List.replicate 32768 'あ', 32767⟩ = 65534 := by
    show Components.offsetGo (List.replicate 32768 'あ') 32767 0 = 65534
    rw [Components.offsetGo_replicate 32768 32767 0 (by norm_num) (by norm_num)]
  have h2 : Components.get_cursor_offset_in_terminal
      ⟨List.replicate 32768 'あ', 32768⟩ = 0 := by
    show Components.offsetGo (List.replicate 32768 'あ') 32768 0 = 0
    rw [Components.offsetGo_replicate 32768 32768 0 (by norm_num) (by norm_num)]
  refine ⟨?_, h1, h2, ?_⟩
  · rw [List.length_replicate]
  · rw [h1, h2]
    omega

/-- Claim C10: in the action/state-store implementation, for every buffer
text and every cursor position (even one exceeding the codepoint count),
`get_cursor_byte_index` returns the byte length of the first
`cursor_position` characters — the byte offset of the `cursor_position`-th
character, or the total byte length when the cursor is at or past the end —
this offset is always a valid UTF-8 character boundary, and the insertion
inside `enter_char` is total (never panics mid-scalar-value). -/
theorem C10_byte_index_safe (s : Components.InputBox) (c : Char) :
    Components.get_cursor_byte_index s = byteLen (s.text.take s.cursor_position) ∧
    isCharBoundary s.text (Components.get_cursor_byte_index s) = true ∧
    (Components.enter_char s c).isSome = true := by
  obtain ⟨t, n⟩ := s
  refine ⟨byteIdx_take t n, isCharBoundary_byteIdx t n, ?_⟩
  rw [Components.enter_char_eq]
  rfl
